import Mathlib

/-!
Verification development for the workflow execution engine of the
humanizer repository: durable state persistence
(`src/src/orchestration/state_manager.py`), the retry/error policy
(`src/src/orchestration/error_handler.py`), and the iteration control
loop (`src/main.py`, `ProductionOrchestrator`).

The Python code is shallowly embedded: dataclasses become structures,
Python dicts become association lists with in-place overwrite semantics,
floats (detection scores, thresholds) become rationals (the code only
compares and subtracts them), and the filesystem side effects of the
checkpoint store become an explicit `FS` record transformed by atomic
steps.  Timestamps (`datetime.now()`) are passed in as opaque strings.
-/

namespace Humanizer

/-- A JSON value, the shape of tool outputs exchanged over stdin/stdout
(`json.loads(result.stdout)` in `error_handler.py`).  Objects keep
insertion order, as Python dicts do. -/
inductive JVal : Type where
  | jstr (s : String)
  | jnum (q : ℚ)
  | jobj (fields : List (String × JVal))

/-- Key lookup in a JSON object (`output.get(key)` / `key in output`);
`none` on a non-object. -/
def jlookup : JVal → String → Option JVal
  | JVal.jobj fields, k => go fields k
  | _, _ => none
where go : List (String × JVal) → String → Option JVal
  | [], _ => none
  | (k', v) :: t, k => if k' = k then some v else go t k

/-- Python dict assignment `d[k] = v`: overwrite in place, preserving the
key's original position, else append. -/
def setAssoc {α : Type} : List (String × α) → String → α → List (String × α)
  | [], k, v => [(k, v)]
  | (k', v') :: t, k, v => if k' = k then (k, v) :: t else (k', v') :: setAssoc t k v

/-- Apply `f` to the last element of a list (`lst[-1]` mutation), identity
on the empty list. -/
def modifyLast {α : Type} (f : α → α) : List α → List α
  | [] => []
  | [x] => [f x]
  | x :: y :: t => x :: modifyLast f (y :: t)

/-- Merging one token-usage dict into another:
`acc[key] = acc.get(key, 0) + value` for each entry. -/
def addTokens : List (String × Nat) → List (String × Nat) → List (String × Nat)
  | acc, [] => acc
  | acc, (k, v) :: t => addTokens (setAssoc acc k (getTok acc k + v)) t
where getTok : List (String × Nat) → String → Nat
  | [], _ => 0
  | (k', v) :: t, k => if k' = k then v else getTok t k

/-- `IterationState` dataclass of `state_manager.py`: the record of one
iteration attempt. -/
structure IterationState : Type where
  iteration : Nat
  timestamp : String
  detection_score : ℚ
  originality_score : ℚ
  gptzero_score : ℚ
  aggression_level : String
  components_executed : List String
  component_outputs : List (String × JVal)
  token_usage : List (String × Nat)
  errors : List String
  completed : Bool
  status : String

/-- `WorkflowState` dataclass of `state_manager.py`: the full durable
state of one workflow. -/
structure WorkflowState : Type where
  workflow_id : String
  original_text : String
  current_text : String
  target_originality_threshold : ℚ
  max_iterations : Nat
  current_iteration : Nat
  iterations : List IterationState
  injection_points : List JVal
  human_inputs : List (Nat × String)
  total_token_usage : List (String × Nat)
  started_at : Option String
  completed_at : Option String
  status : String
  final_scores : Option (List (String × ℚ))

/-- The fresh state built by `StateManager.create_workflow` before its
initial durable write. -/
def initWorkflowState (wid text : String) (thr : ℚ) (maxIt : Nat) (now : String) :
    WorkflowState :=
  { workflow_id := wid
    original_text := text
    current_text := text
    target_originality_threshold := thr
    max_iterations := maxIt
    current_iteration := 0
    iterations := []
    injection_points := []
    human_inputs := []
    total_token_usage := [("prompt_tokens", 0), ("completion_tokens", 0), ("total_tokens", 0)]
    started_at := some now
    completed_at := none
    status := "in_progress"
    final_scores := none }

/-- `StateManager.start_iteration`: append a fresh, non-completed
`IterationState` and set `current_iteration` to its number.  (The source
raises `ValueError` when no workflow is loaded; this embedding works on
the loaded `WorkflowState` directly, so that case does not arise.) -/
def start_iteration (ws : WorkflowState) (now : String) (iteration : Nat)
    (aggression_level : String) : WorkflowState :=
  { ws with
    iterations := ws.iterations ++
      [{ iteration := iteration
         timestamp := now
         detection_score := 0
         originality_score := 0
         gptzero_score := 0
         aggression_level := aggression_level
         components_executed := []
         component_outputs := []
         token_usage := []
         errors := []
         completed := false
         status := "in_progress" }]
    current_iteration := iteration }

/-- `StateManager.update_iteration`: mutate the last `IterationState` in
place — append the component, store its output, optionally overwrite the
score fields, merge token usage into both totals, record an error line.
(The source raises `ValueError` on an empty iteration list; every use in
this development has a started iteration.  The trailing
`save_checkpoint(backup=False)` acts on the filesystem model, not on the
state, and is treated in the `FS` section.)  `applyUpdate` is the
in-place mutation of the current (last) `IterationState`. -/
def applyUpdate (component : String) (output : JVal)
    (detection_score originality_score gptzero_score : Option ℚ)
    (token_usage : Option (List (String × Nat))) (error : Option String)
    (it : IterationState) : IterationState :=
  let it := { it with
    components_executed := it.components_executed ++ [component]
    component_outputs := setAssoc it.component_outputs component output }
  let it := match detection_score with
    | some d => { it with detection_score := d }
    | none => it
  let it := match originality_score with
    | some d => { it with originality_score := d }
    | none => it
  let it := match gptzero_score with
    | some d => { it with gptzero_score := d }
    | none => it
  let it := match token_usage with
    | some tu => { it with token_usage := addTokens it.token_usage tu }
    | none => it
  match error with
    | some e => { it with errors := it.errors ++ [component ++ ": " ++ e] }
    | none => it

/-- `StateManager.update_iteration` proper: `applyUpdate` on the last
iteration record, plus the merge into the workflow's
`total_token_usage`. -/
def update_iteration (ws : WorkflowState) (component : String) (output : JVal)
    (detection_score originality_score gptzero_score : Option ℚ)
    (token_usage : Option (List (String × Nat))) (error : Option String) : WorkflowState :=
  { ws with
    iterations := modifyLast
      (applyUpdate component output detection_score originality_score gptzero_score
        token_usage error)
      ws.iterations
    total_token_usage := match token_usage with
      | some tu => addTokens ws.total_token_usage tu
      | none => ws.total_token_usage }

/-- `StateManager.complete_iteration`: mark the last iteration completed
and set the workflow's `current_text`. -/
def complete_iteration (ws : WorkflowState) (humanized_text : String) : WorkflowState :=
  { ws with
    iterations := modifyLast
      (fun it => { it with completed := true, status := "completed" }) ws.iterations
    current_text := humanized_text }

/-- `StateManager.complete_workflow`: stamp `completed_at`, set the final
status and scores. -/
def complete_workflow (ws : WorkflowState) (now : String)
    (final_scores : List (String × ℚ)) (status : String) : WorkflowState :=
  { ws with
    completed_at := some now
    status := status
    final_scores := some final_scores }

/-! ### Filesystem model for the checkpoint store

One workflow id owns one live checkpoint path, one temporary sibling
created by `tempfile.mkstemp`, and a backup directory.  File contents are
either a parseable serialisation of a `WorkflowState` or corrupt bytes
(`json.load` raises on them). -/

/-- Contents of a checkpoint file: `json.dumps` of a state, or bytes the
reader cannot parse. -/
inductive Content : Type where
  | valid (ws : WorkflowState)
  | corrupt

/-- Filesystem state for one workflow id. `tempSynced` records whether the
temporary file's bytes were forced to stable storage
(`f.flush(); os.fsync(...)`). -/
structure FS : Type where
  live : Option Content
  temp : Option Content
  tempSynced : Bool
  backups : List Content

/-- The atomic steps `StateManager.save_checkpoint` performs, in source
order: write the serialised state to the temporary sibling, flush and
fsync it, copy the previous live file into the backup directory
(retention-capped at 10), atomically rename the temporary over the live
path (`shutil.move`), or unlink the temporary (the `except` cleanup). -/
inductive SaveStep : Type where
  | writeTemp
  | syncTemp
  | backupCopy
  | renameOver
  | removeTemp

/-- Effect of one save step on the filesystem. -/
def applySaveStep (ws : WorkflowState) (fs : FS) : SaveStep → FS
  | SaveStep.writeTemp => { fs with temp := some (Content.valid ws), tempSynced := false }
  | SaveStep.syncTemp => { fs with tempSynced := true }
  | SaveStep.backupCopy =>
    match fs.live with
    | some c => { fs with backups := (c :: fs.backups).take 10 }
    | none => fs
  | SaveStep.renameOver => { fs with live := fs.temp, temp := none }
  | SaveStep.removeTemp => { fs with temp := none, tempSynced := false }

/-- The step sequence of a non-failing `save_checkpoint(backup)` run; the
backup copy is attempted only when `backup` is true (and copies only when
a live file exists, see `applySaveStep`).  The rename is always the final
step. -/
def saveSteps (backup : Bool) : List SaveStep :=
  [SaveStep.writeTemp, SaveStep.syncTemp] ++
    (if backup then [SaveStep.backupCopy] else []) ++ [SaveStep.renameOver]

/-- Run a list of save steps left to right. -/
def runSaveSteps (ws : WorkflowState) (steps : List SaveStep) (fs : FS) : FS :=
  steps.foldl (applySaveStep ws) fs

/-- `StateManager.save_checkpoint` completing normally: all steps run and
the call reports success. -/
def save_checkpoint (ws : WorkflowState) (backup : Bool) (fs : FS) : FS × Bool :=
  (runSaveSteps ws (saveSteps backup) fs, true)

/-- A crash after the first `k` steps of `save_checkpoint`: the remaining
steps never run and no cleanup happens. -/
def save_checkpoint_crash (ws : WorkflowState) (backup : Bool) (k : Nat) (fs : FS) : FS :=
  runSaveSteps ws ((saveSteps backup).take k) fs

/-- An exception after the first `k` steps of `save_checkpoint`: the
`except` handler unlinks the temporary file and the call reports
failure. -/
def save_checkpoint_fail (ws : WorkflowState) (backup : Bool) (k : Nat) (fs : FS) :
    FS × Bool :=
  (applySaveStep ws (save_checkpoint_crash ws backup k fs) SaveStep.removeTemp, false)

/-- `StateManager.load_workflow`: `None` when no checkpoint file exists
for the id, the reconstructed state when the file parses, and — because
the reader catches every exception and returns `None` — also `None` when
the stored representation cannot be parsed. -/
def load_workflow (fs : FS) : Option WorkflowState :=
  match fs.live with
  | none => none
  | some (Content.valid ws) => some ws
  | some Content.corrupt => none

/-- `StateManager.create_workflow`: builds a fresh state and performs the
initial durable write.  The source never checks whether a checkpoint for
the id already exists; an existing live file is simply overwritten by the
save (after being copied into the backup directory, since
`save_checkpoint` defaults to `backup=True`). -/
def create_workflow (fs : FS) (now wid text : String) (thr : ℚ) (maxIt : Nat) :
    FS × WorkflowState :=
  let ws := initWorkflowState wid text thr maxIt now
  ((save_checkpoint ws true fs).1, ws)

/-! ### Error/Retry policy (`error_handler.py`)

`ErrorHandler.execute_tool_safely` spawns the tool subprocess once per
attempt.  The subprocess is an external collaborator, so its behaviour is
an input: a function from the attempt index to what `subprocess.run`
produced (exit code, stdout, stderr), a timeout, or a raised exception.
The embedding returns a trace: the final result, the logged
`ErrorContext` history, the backoff delays slept, and the number of
attempts performed. -/

/-- `ErrorSeverity` enum. -/
inductive ErrorSeverity : Type where
  | warning
  | error
  | fatal

/-- `ErrorContext` dataclass (the entry appended to `error_history`). -/
structure ErrorContext : Type where
  component : String
  operation : String
  error_message : JVal
  severity : ErrorSeverity
  iteration : Nat
  recoverable : Bool
  suggestion : Option String

/-- The `ToolExecutionError` exception: component, message, exit code. -/
structure ToolExecutionError : Type where
  component : String
  message : JVal
  exit_code : Int

/-- The stdout text of a finished subprocess as seen by `json.loads`:
valid JSON, unparseable bytes (carrying the decoder's message), or the
empty string (falsy in Python, so
`json.loads(result.stdout) if result.stdout else {}` distinguishes it). -/
inductive Stdout : Type where
  | parsed (v : JVal)
  | malformed (msg : String)
  | empty

/-- What one `subprocess.run` call produced.  `ran` carries the exit code
and the raw stdout/stderr; `timedOut` is `subprocess.TimeoutExpired`;
`raised` is any other exception out of the spawn itself. -/
inductive AttemptOutcome : Type where
  | ran (returncode : Int) (stdout : Stdout) (stderr : String)
  | timedOut
  | raised (msg : String)

/-- The message `json.JSONDecodeError` produces on empty input. -/
def jsonEmptyMsg : String := "Expecting value: line 1 column 1 (char 0)"

/-- Python `str()` of the dynamically-typed error values the handler
formats into messages.  String rendering of non-string JSON values is
abstracted (the claims under verification never pin it down). -/
def pyStr : JVal → String
  | JVal.jstr s => s
  | JVal.jnum q => toString q
  | JVal.jobj _ => "{...}"

/-- The `error_message` each failure branch of `execute_tool_safely`
derives, mirroring the source branch for branch: for a non-zero exit it
is the stdout `error` field when stdout parses, else
`result.stderr or 'Unknown error'` (or `'Invalid output'` when stdout is
present but unparseable); for a zero exit it is the `error` field, or the
JSON-decode complaint; a timeout and a spawn exception carry their own
messages. -/
def failureMessage (timeout : Nat) : AttemptOutcome → JVal
  | AttemptOutcome.ran rc stdout stderr =>
    if rc ≠ 0 then
      match stdout with
      | Stdout.parsed v =>
        match jlookup v "error" with
        | some e => e
        | none => JVal.jstr (if stderr = "" then "Unknown error" else stderr)
      | Stdout.malformed _ => JVal.jstr (if stderr = "" then "Invalid output" else stderr)
      | Stdout.empty => JVal.jstr (if stderr = "" then "Unknown error" else stderr)
    else
      match stdout with
      | Stdout.parsed v => (jlookup v "error").getD (JVal.jstr "")
      | Stdout.malformed m => JVal.jstr ("Invalid JSON output: " ++ m)
      | Stdout.empty => JVal.jstr ("Invalid JSON output: " ++ jsonEmptyMsg)
  | AttemptOutcome.timedOut =>
    JVal.jstr ("Timeout after " ++ toString timeout ++ " seconds")
  | AttemptOutcome.raised m => JVal.jstr m

/-- Whether an attempt outcome takes one of the retryable failure
branches: non-zero exit, an `error` field present in parsed output, or a
timeout.  A malformed zero-exit stdout and a spawn exception are not
retryable. -/
def isRetryable : AttemptOutcome → Bool
  | AttemptOutcome.ran rc stdout _ =>
    if rc ≠ 0 then true
    else
      match stdout with
      | Stdout.parsed v => (jlookup v "error").isSome
      | _ => false
  | AttemptOutcome.timedOut => true
  | AttemptOutcome.raised _ => false

/-- The `ErrorContext` logged for a retryable failure at `attempt`,
branch by branch from the source (non-zero exit logs a retry suggestion;
an `error` field logs none; a timeout suggests raising the timeout). -/
def retryContext (toolName : String) (iteration maxRetries attempt timeout : Nat) :
    AttemptOutcome → ErrorContext
  | AttemptOutcome.ran rc stdout stderr =>
    if rc ≠ 0 then
      { component := toolName
        operation := "execute"
        error_message := failureMessage timeout (AttemptOutcome.ran rc stdout stderr)
        severity := ErrorSeverity.error
        iteration := iteration
        recoverable := true
        suggestion := some ("Retry " ++ toString (attempt + 1) ++ "/" ++ toString maxRetries) }
    else
      { component := toolName
        operation := "execute"
        error_message := failureMessage timeout (AttemptOutcome.ran rc stdout stderr)
        severity := ErrorSeverity.error
        iteration := iteration
        recoverable := true
        suggestion := none }
  | AttemptOutcome.timedOut =>
    { component := toolName
      operation := "execute"
      error_message := failureMessage timeout AttemptOutcome.timedOut
      severity := ErrorSeverity.error
      iteration := iteration
      recoverable := true
      suggestion := some "Increase timeout or simplify input" }
  | AttemptOutcome.raised m =>
    { component := toolName
      operation := "execute"
      error_message := JVal.jstr m
      severity := ErrorSeverity.fatal
      iteration := iteration
      recoverable := false
      suggestion := none }

/-- Trace of one `execute_tool_safely` call.  `result` is
`Except`-valued; `Except.ok none` is the implicit `None` a Python `for`
loop falls through to when `max_retries = 0`. -/
structure ExecTrace : Type where
  result : Except ToolExecutionError (Option JVal)
  contexts : List ErrorContext
  delays : List Nat
  attemptsUsed : Nat

/-- A `raise ToolExecutionError(...)` from inside the attempt's `try`
block is caught by the trailing `except Exception` handler, which logs a
fatal context with `str(e)` (that is, `f"{component}: {message}"`) and
re-raises `ToolExecutionError(tool_name, str(e))` with the default exit
code 1.  Only the timeout path raises from inside an `except` clause and
so escapes this wrapping. -/
def wrapRaise (toolName : String) (iteration : Nat) (msg : JVal)
    (ctxs : List ErrorContext) (delays : List Nat) (attempt : Nat) : ExecTrace :=
  let s := toolName ++ ": " ++ pyStr msg
  { result := Except.error { component := toolName, message := JVal.jstr s, exit_code := 1 }
    contexts := ctxs ++
      [{ component := toolName
         operation := "execute"
         error_message := JVal.jstr s
         severity := ErrorSeverity.fatal
         iteration := iteration
         recoverable := false
         suggestion := none }]
    delays := delays
    attemptsUsed := attempt + 1 }

/-- The retry loop body of `execute_tool_safely`; recursion on the number
of remaining loop indices, with `attempt + remaining = max_retries`
throughout a call from the entry point. -/
def execGo (maxRetries retryDelay timeout : Nat) (toolName : String) (iteration : Nat)
    (behavior : Nat → AttemptOutcome) :
    Nat → Nat → List ErrorContext → List Nat → ExecTrace
  | attempt, 0, ctxs, delays =>
    { result := Except.ok none, contexts := ctxs, delays := delays, attemptsUsed := attempt }
  | attempt, remaining + 1, ctxs, delays =>
    match behavior attempt with
    | AttemptOutcome.ran rc stdout stderr =>
      if rc ≠ 0 then
        let ctx := retryContext toolName iteration maxRetries attempt timeout
          (AttemptOutcome.ran rc stdout stderr)
        if attempt < maxRetries - 1 then
          execGo maxRetries retryDelay timeout toolName iteration behavior
            (attempt + 1) remaining (ctxs ++ [ctx]) (delays ++ [retryDelay * 2 ^ attempt])
        else
          wrapRaise toolName iteration
            (failureMessage timeout (AttemptOutcome.ran rc stdout stderr))
            (ctxs ++ [ctx]) delays attempt
      else
        match stdout with
        | Stdout.parsed v =>
          match jlookup v "error" with
          | some errv =>
            let ctx := retryContext toolName iteration maxRetries attempt timeout
              (AttemptOutcome.ran rc stdout stderr)
            if attempt < maxRetries - 1 then
              execGo maxRetries retryDelay timeout toolName iteration behavior
                (attempt + 1) remaining (ctxs ++ [ctx]) (delays ++ [retryDelay * 2 ^ attempt])
            else
              wrapRaise toolName iteration errv (ctxs ++ [ctx]) delays attempt
          | none =>
            { result := Except.ok (some v)
              contexts := ctxs
              delays := delays
              attemptsUsed := attempt + 1 }
        | Stdout.malformed m =>
          let ctx : ErrorContext :=
            { component := toolName
              operation := "parse_output"
              error_message := JVal.jstr ("Invalid JSON output: " ++ m)
              severity := ErrorSeverity.error
              iteration := iteration
              recoverable := false
              suggestion := none }
          wrapRaise toolName iteration (JVal.jstr ("Invalid JSON output: " ++ m))
            (ctxs ++ [ctx]) delays attempt
        | Stdout.empty =>
          let ctx : ErrorContext :=
            { component := toolName
              operation := "parse_output"
              error_message := JVal.jstr ("Invalid JSON output: " ++ jsonEmptyMsg)
              severity := ErrorSeverity.error
              iteration := iteration
              recoverable := false
              suggestion := none }
          wrapRaise toolName iteration (JVal.jstr ("Invalid JSON output: " ++ jsonEmptyMsg))
            (ctxs ++ [ctx]) delays attempt
    | AttemptOutcome.timedOut =>
      let ctx := retryContext toolName iteration maxRetries attempt timeout
        AttemptOutcome.timedOut
      if attempt < maxRetries - 1 then
        execGo maxRetries retryDelay timeout toolName iteration behavior
          (attempt + 1) remaining (ctxs ++ [ctx]) (delays ++ [retryDelay * 2 ^ attempt])
      else
        { result := Except.error
            { component := toolName
              message := failureMessage timeout AttemptOutcome.timedOut
              exit_code := 1 }
          contexts := ctxs ++ [ctx]
          delays := delays
          attemptsUsed := attempt + 1 }
    | AttemptOutcome.raised m =>
      let ctx := retryContext toolName iteration maxRetries attempt timeout
        (AttemptOutcome.raised m)
      { result := Except.error
          { component := toolName, message := JVal.jstr m, exit_code := 1 }
        contexts := ctxs ++ [ctx]
        delays := delays
        attemptsUsed := attempt + 1 }

/-- `ErrorHandler.execute_tool_safely(tool_name, input_json, timeout,
iteration)`: up to `max_retries` attempts against the given subprocess
behaviour. -/
def execute_tool_safely (maxRetries retryDelay timeout : Nat) (toolName : String)
    (iteration : Nat) (behavior : Nat → AttemptOutcome) : ExecTrace :=
  execGo maxRetries retryDelay timeout toolName iteration behavior 0 maxRetries [] []

/-! ### Control loop (`main.py`, `ProductionOrchestrator`)

The loop is modelled for runs in which every stage call returns
successfully; stage failures are modelled separately at the
`execute_tool_safely` level.  Human injection is disabled
(`--no-human-injection`), which only affects the text, never the control
flow, because the injection check runs after the quality-gate break.
Each iteration's external stage results are an input: a `StageEnv`
giving what each tool returned for that iteration. -/

/-- The escalation ladder `self.aggression_levels` (ordinal levels 1–5). -/
def aggression_levels : List String :=
  ["gentle", "moderate", "aggressive", "intensive", "nuclear"]

/-- `ProductionOrchestrator._select_aggression_level`.  Iteration 1 is
always `"gentle"`; with fewer than two recorded iterations the level is
`"gentle"`; otherwise the last two iterations' detection scores are
compared and a difference below 5.0 escalates one ladder index (capped at
the top), else the last iteration's level is held.  (For a level not on
the ladder the source's `list.index` raises `ValueError`; this embedding
is only evaluated on ladder levels.) -/
def select_aggression_level (iterations : List IterationState) (iteration_num : Nat) :
    String :=
  if iteration_num = 1 then "gentle"
  else if iterations.length < 2 then "gentle"
  else
    match iterations.drop (iterations.length - 2) with
    | [a, b] =>
      if a.detection_score - b.detection_score < 5 then
        aggression_levels.getD (min (aggression_levels.indexOf b.aggression_level + 1) 4)
          "nuclear"
      else b.aggression_level
    | _ =>
      match iterations.getLast? with
      | some it => it.aggression_level
      | none => "gentle"

/-- What the external tools returned for one iteration: the recorded
outputs and transformed texts of the eight pipeline stages, in pipeline
order (term protection, paraphrase, post-process, fingerprint removal,
burstiness, detection — which also queries the perplexity tool —
perplexity, validation). -/
structure StageEnv : Type where
  timestamp : String
  protectedTermsCount : Nat
  protectedText : String
  postOut : JVal
  postText : String
  patternsRemoved : Nat
  cleanedText : String
  burstOut : JVal
  enhancedText : String
  detectOut : JVal
  detectionScore : ℚ
  perplexOut : JVal
  validOut : JVal

/-- One pass of the loop body's stage pipeline for iteration `n` at level
`lvl`: `start_iteration`, then the eight `update_iteration` calls of
`_execute_term_protection` … `_execute_validation` in source order (the
detection stage also stores `detection_score` and `originality_score`),
then `complete_iteration` with the burstiness-enhanced text (the last
text-transforming stage; paraphrasing is the source's identity
placeholder). -/
def runIterationBody (e : StageEnv) (n : Nat) (lvl : String) (ws : WorkflowState) :
    WorkflowState :=
  let ws := start_iteration ws e.timestamp n lvl
  let ws := update_iteration ws "term_protector"
    (JVal.jobj [("protected_terms", JVal.jnum e.protectedTermsCount)])
    none none none none none
  let ws := update_iteration ws "paraphraser"
    (JVal.jobj [("aggression_level", JVal.jstr lvl)]) none none none none none
  let ws := update_iteration ws "paraphraser_processor" e.postOut none none none none none
  let ws := update_iteration ws "fingerprint_remover"
    (JVal.jobj [("patterns_removed", JVal.jnum e.patternsRemoved)]) none none none none none
  let ws := update_iteration ws "burstiness_enhancer" e.burstOut none none none none none
  let ws := update_iteration ws "detector_processor" e.detectOut
    (some e.detectionScore) (some e.detectionScore) none none none
  let ws := update_iteration ws "perplexity_calculator" e.perplexOut none none none none none
  let ws := update_iteration ws "validator" e.validOut none none none none none
  complete_iteration ws e.enhancedText

/-- The completed `IterationState` one body pass appends. -/
def finishedIter (e : StageEnv) (n : Nat) (lvl : String) : IterationState :=
  { iteration := n
    timestamp := e.timestamp
    detection_score := e.detectionScore
    originality_score := e.detectionScore
    gptzero_score := 0
    aggression_level := lvl
    components_executed :=
      ["term_protector", "paraphraser", "paraphraser_processor", "fingerprint_remover",
        "burstiness_enhancer", "detector_processor", "perplexity_calculator", "validator"]
    component_outputs :=
      [("term_protector", JVal.jobj [("protected_terms", JVal.jnum e.protectedTermsCount)]),
        ("paraphraser", JVal.jobj [("aggression_level", JVal.jstr lvl)]),
        ("paraphraser_processor", e.postOut),
        ("fingerprint_remover", JVal.jobj [("patterns_removed", JVal.jnum e.patternsRemoved)]),
        ("burstiness_enhancer", e.burstOut),
        ("detector_processor", e.detectOut),
        ("perplexity_calculator", e.perplexOut),
        ("validator", e.validOut)]
    token_usage := []
    errors := []
    completed := true
    status := "completed" }

/-- Orchestrator configuration read from the YAML config. -/
structure OrchConfig : Type where
  maxIterations : Nat
  targetThreshold : ℚ

/-- The mutable locals of `run_workflow`'s loop: the state object (shared
with the `StateManager`), the local `current_iteration` counter, the
local `current_text`, and the local `detection_score` binding (`none`
while the name is still unbound). -/
structure RunState : Type where
  ws : WorkflowState
  cur : Nat
  curText : String
  lastScore : Option ℚ

/-- The `while current_iteration < self.max_iterations` loop.  Each pass
selects the aggression level from the live iteration history, runs the
body, and breaks when the iteration's detection score is at or below the
target threshold — before `current_iteration` is advanced.  Recursion is
on a fuel bound; any fuel at least `maxIterations - cur` is exact because
each pass advances `cur` by one. -/
def runLoop (cfg : OrchConfig) (env : Nat → StageEnv) :
    Nat → RunState → RunState
  | 0, s => s
  | fuel + 1, s =>
    if s.cur < cfg.maxIterations then
      let n := s.cur + 1
      let lvl := select_aggression_level s.ws.iterations n
      let ws := runIterationBody (env n) n lvl s.ws
      let s' : RunState :=
        { ws := ws, cur := s.cur, curText := (env n).enhancedText
          lastScore := some (env n).detectionScore }
      if (env n).detectionScore ≤ cfg.targetThreshold then s'
      else runLoop cfg env fuel { s' with cur := n }
    else s

/-- The loop locals at entry: `current_iteration` and `current_text` from
the created or loaded state, `detection_score` not yet bound. -/
def initRunState (ws0 : WorkflowState) : RunState :=
  ⟨ws0, ws0.current_iteration, ws0.current_text, none⟩

/-- Phase 2 and Phase 3 of `run_workflow` from a loaded or fresh state:
run the loop, then finalize.  When the loop body never ran, the
unguarded `status = "completed" if detection_score <= ...` line raises
`NameError` (`detection_score` was never bound), modelled as an error
result; otherwise `complete_workflow` records the last detection score as
both final scores and the status is `"completed"` exactly when that score
met the threshold, `"max_iterations"` otherwise. -/
def runAndFinalize (cfg : OrchConfig) (env : Nat → StageEnv) (ws0 : WorkflowState)
    (endTs : String) : Except String WorkflowState :=
  let s := runLoop cfg env cfg.maxIterations (initRunState ws0)
  match s.lastScore with
  | none => Except.error "NameError: name 'detection_score' is not defined"
  | some d =>
    Except.ok (complete_workflow s.ws endTs [("weighted", d), ("originality", d)]
      (if d ≤ cfg.targetThreshold then "completed" else "max_iterations"))

/-- `run_workflow` without a `workflow_id`: create a fresh workflow and
run. (The initial durable write of `create_workflow` acts on the
filesystem model treated in the `FS` section.) -/
def run_workflow_new (cfg : OrchConfig) (env : Nat → StageEnv)
    (wid inputText now endTs : String) : Except String WorkflowState :=
  runAndFinalize cfg env
    (initWorkflowState wid inputText cfg.targetThreshold cfg.maxIterations now) endTs

/-- `run_workflow` with an existing `workflow_id`: `load_workflow` from
the checkpoint, `ValueError` when it returns `None`, else resume the loop
from the loaded state. -/
def run_workflow_resume (cfg : OrchConfig) (env : Nat → StageEnv) (fs : FS)
    (wid endTs : String) : Except String WorkflowState :=
  match load_workflow fs with
  | none => Except.error ("Workflow " ++ wid ++ " not found")
  | some ws0 => runAndFinalize cfg env ws0 endTs

/-- Result of one orchestrator stage wrapper: the successful value, a
`ToolExecutionError` propagated to the iteration's error handling, or a
crash of the wrapper itself (a missing key / type error in the
dynamically-typed Python, which neither `except` clause of the loop
catches). -/
inductive StageResult (α : Type) : Type where
  | success (v : α)
  | toolError (e : ToolExecutionError)
  | crashed (msg : String)

/-- `ProductionOrchestrator._execute_term_protection`: one
`execute_tool_safely("term_protector", ...)` call followed — only on
success — by exactly one `update_iteration` recording
`{"protected_terms": len(placeholder_map)}`; returns the protected text.
The crash cases mirror Python's `KeyError`/`TypeError` on outputs that
lack the contracted fields. -/
def execute_term_protection (maxRetries retryDelay timeout : Nat) (iteration : Nat)
    (ws : WorkflowState) (behavior : Nat → AttemptOutcome) :
    StageResult (WorkflowState × String) :=
  match (execute_tool_safely maxRetries retryDelay timeout "term_protector" iteration
      behavior).result with
  | Except.error e => StageResult.toolError e
  | Except.ok none => StageResult.crashed "TypeError: 'NoneType' object is not subscriptable"
  | Except.ok (some v) =>
    match jlookup v "protected_text" with
    | none => StageResult.crashed "KeyError: 'protected_text'"
    | some pt =>
      let placCount : Option Nat :=
        match jlookup v "placeholder_map" with
        | some (JVal.jobj l) => some l.length
        | none => some 0
        | some _ => none
      match placCount, pt with
      | some cnt, JVal.jstr t =>
        StageResult.success
          (update_iteration ws "term_protector"
            (JVal.jobj [("protected_terms", JVal.jnum cnt)]) none none none none none, t)
      | _, _ => StageResult.crashed "TypeError"

/-! ### Helper lemmas -/

theorem modifyLast_cons {α : Type} (f : α → α) (a : α) (l : List α) (h : l ≠ []) :
    modifyLast f (a :: l) = a :: modifyLast f l := by
  cases l with
  | nil => exact absurd rfl h
  | cons b t => rfl

theorem modifyLast_append_singleton {α : Type} (f : α → α) (l : List α) (x : α) :
    modifyLast f (l ++ [x]) = l ++ [f x] := by
  induction l with
  | nil => rfl
  | cons a t ih =>
    rw [List.cons_append, modifyLast_cons f a (t ++ [x]) (by simp), ih, List.cons_append]

/-- One body pass appends exactly one completed iteration record and
updates `current_iteration` and `current_text`; nothing else changes. -/
theorem runIterationBody_eq (e : StageEnv) (n : Nat) (lvl : String) (ws : WorkflowState) :
    runIterationBody e n lvl ws =
      { ws with
        iterations := ws.iterations ++ [finishedIter e n lvl]
        current_iteration := n
        current_text := e.enhancedText } := by
  simp [runIterationBody, start_iteration, update_iteration, applyUpdate,
    complete_iteration, modifyLast_append_singleton, finishedIter, setAssoc]

/-- The exponential-backoff delays slept for `cnt` consecutive retryable
failures starting at attempt index `a`:
`retry_delay * 2 ** attempt` each. -/
def backoffDelays (base : Nat) : Nat → Nat → List Nat
  | _, 0 => []
  | a, cnt + 1 => base * 2 ^ a :: backoffDelays base (a + 1) cnt

/-- The contexts logged for `cnt` consecutive retryable failures starting
at attempt index `a`. -/
def retryCtxList (toolName : String) (iteration maxRetries timeout : Nat)
    (behavior : Nat → AttemptOutcome) : Nat → Nat → List ErrorContext
  | _, 0 => []
  | a, cnt + 1 =>
    retryContext toolName iteration maxRetries a timeout (behavior a) ::
      retryCtxList toolName iteration maxRetries timeout behavior (a + 1) cnt

/-- The trace a final-attempt retryable failure produces: the timeout
path raises cleanly from its `except` clause; the other paths raise from
inside the `try` and get wrapped by the `except Exception` handler. -/
def finalFailure (toolName : String) (iteration maxRetries timeout : Nat)
    (o : AttemptOutcome) (attempt : Nat) (ctxs : List ErrorContext)
    (delays : List Nat) : ExecTrace :=
  match o with
  | AttemptOutcome.timedOut =>
    { result := Except.error
        { component := toolName
          message := failureMessage timeout AttemptOutcome.timedOut
          exit_code := 1 }
      contexts := ctxs ++
        [retryContext toolName iteration maxRetries attempt timeout AttemptOutcome.timedOut]
      delays := delays
      attemptsUsed := attempt + 1 }
  | o =>
    wrapRaise toolName iteration (failureMessage timeout o)
      (ctxs ++ [retryContext toolName iteration maxRetries attempt timeout o]) delays attempt

/-- The `ToolExecutionError` the caller receives from a final-attempt
retryable failure. -/
def finalRaisedError (timeout : Nat) (toolName : String) (o : AttemptOutcome) :
    ToolExecutionError :=
  match o with
  | AttemptOutcome.timedOut =>
    { component := toolName, message := failureMessage timeout AttemptOutcome.timedOut
      exit_code := 1 }
  | o =>
    { component := toolName
      message := JVal.jstr (toolName ++ ": " ++ pyStr (failureMessage timeout o))
      exit_code := 1 }

theorem finalFailure_result (toolName : String) (iteration maxRetries timeout : Nat)
    (o : AttemptOutcome) (attempt : Nat) (ctxs : List ErrorContext) (delays : List Nat) :
    (finalFailure toolName iteration maxRetries timeout o attempt ctxs delays).result =
      Except.error (finalRaisedError timeout toolName o) ∧
    (finalFailure toolName iteration maxRetries timeout o attempt ctxs delays).delays =
      delays ∧
    (finalFailure toolName iteration maxRetries timeout o attempt ctxs delays).attemptsUsed =
      attempt + 1 := by
  cases o <;> simp [finalFailure, wrapRaise, finalRaisedError]

theorem retryCtxList_length (toolName : String) (iteration maxRetries timeout : Nat)
    (behavior : Nat → AttemptOutcome) (a cnt : Nat) :
    (retryCtxList toolName iteration maxRetries timeout behavior a cnt).length = cnt := by
  induction cnt generalizing a with
  | zero => rfl
  | succ n ih => simp [retryCtxList, ih]

theorem execGo_retry_step (maxRetries retryDelay timeout : Nat) (toolName : String)
    (iteration : Nat) (behavior : Nat → AttemptOutcome) (attempt remaining : Nat)
    (ctxs : List ErrorContext) (delays : List Nat)
    (hr : isRetryable (behavior attempt) = true) (hlt : attempt < maxRetries - 1) :
    execGo maxRetries retryDelay timeout toolName iteration behavior
        attempt (remaining + 1) ctxs delays =
      execGo maxRetries retryDelay timeout toolName iteration behavior
        (attempt + 1) remaining
        (ctxs ++ [retryContext toolName iteration maxRetries attempt timeout
          (behavior attempt)])
        (delays ++ [retryDelay * 2 ^ attempt]) := by
  cases hb : behavior attempt with
  | ran rc stdout stderr =>
    by_cases hrc : rc = 0
    · subst hrc
      cases stdout with
      | parsed v =>
        rw [hb] at hr
        simp only [isRetryable, ne_eq, not_true_eq_false, if_false, ite_false] at hr
        rcases Option.isSome_iff_exists.mp (by simpa using hr) with ⟨errv, hlk⟩
        simp [execGo, hb, hlk, hlt]
      | malformed m => rw [hb] at hr; simp [isRetryable] at hr
      | empty => rw [hb] at hr; simp [isRetryable] at hr
    · simp [execGo, hb, hrc, hlt]
  | timedOut => simp [execGo, hb, hlt]
  | raised m => rw [hb] at hr; simp [isRetryable] at hr

theorem execGo_final_fail (maxRetries retryDelay timeout : Nat) (toolName : String)
    (iteration : Nat) (behavior : Nat → AttemptOutcome) (attempt remaining : Nat)
    (ctxs : List ErrorContext) (delays : List Nat)
    (hr : isRetryable (behavior attempt) = true) (hlt : ¬ attempt < maxRetries - 1) :
    execGo maxRetries retryDelay timeout toolName iteration behavior
        attempt (remaining + 1) ctxs delays =
      finalFailure toolName iteration maxRetries timeout (behavior attempt) attempt
        ctxs delays := by
  cases hb : behavior attempt with
  | ran rc stdout stderr =>
    by_cases hrc : rc = 0
    · subst hrc
      cases stdout with
      | parsed v =>
        rw [hb] at hr
        simp only [isRetryable, ne_eq, not_true_eq_false, if_false, ite_false] at hr
        rcases Option.isSome_iff_exists.mp (by simpa using hr) with ⟨errv, hlk⟩
        simp [execGo, hb, hlk, hlt, finalFailure, failureMessage]
      | malformed m => rw [hb] at hr; simp [isRetryable] at hr
      | empty => rw [hb] at hr; simp [isRetryable] at hr
    · simp [execGo, hb, hrc, hlt, finalFailure]
  | timedOut => simp [execGo, hb, hlt, finalFailure]
  | raised m => rw [hb] at hr; simp [isRetryable] at hr

/-- Skipping a run of retryable failures: `cnt` consecutive retryable
attempts starting at `attempt`, all before the final attempt, each log
one context and sleep one backoff delay. -/
theorem execGo_skip (maxRetries retryDelay timeout : Nat) (toolName : String)
    (iteration : Nat) (behavior : Nat → AttemptOutcome) :
    ∀ cnt attempt remaining ctxs delays,
    cnt ≤ remaining →
    attempt + cnt ≤ maxRetries - 1 →
    (∀ a, attempt ≤ a → a < attempt + cnt → isRetryable (behavior a) = true) →
    execGo maxRetries retryDelay timeout toolName iteration behavior
        attempt remaining ctxs delays =
      execGo maxRetries retryDelay timeout toolName iteration behavior
        (attempt + cnt) (remaining - cnt)
        (ctxs ++ retryCtxList toolName iteration maxRetries timeout behavior attempt cnt)
        (delays ++ backoffDelays retryDelay attempt cnt) := by
  intro cnt
  induction cnt with
  | zero => intro attempt remaining ctxs delays _ _ _; simp [retryCtxList, backoffDelays]
  | succ n ih =>
    intro attempt remaining ctxs delays hle hbound hall
    cases remaining with
    | zero => omega
    | succ r =>
      rw [execGo_retry_step maxRetries retryDelay timeout toolName iteration behavior
        attempt r ctxs delays (hall attempt le_rfl (by omega)) (by omega)]
      rw [ih (attempt + 1) r _ _ (by omega) (by omega)
        (fun a ha1 ha2 => hall a (by omega) (by omega))]
      simp only [retryCtxList, backoffDelays, List.append_assoc, List.cons_append,
        List.nil_append, List.singleton_append]
      congr 1 <;> omega

/-- The `RunState` after one loop-body pass (before the quality-gate
check decides whether `cur` advances). -/
def stepState (env : Nat → StageEnv) (s : RunState) : RunState :=
  ⟨runIterationBody (env (s.cur + 1)) (s.cur + 1)
      (select_aggression_level s.ws.iterations (s.cur + 1)) s.ws,
    s.cur, (env (s.cur + 1)).enhancedText, some (env (s.cur + 1)).detectionScore⟩

theorem runLoop_succ (cfg : OrchConfig) (env : Nat → StageEnv) (f : Nat) (s : RunState)
    (h : s.cur < cfg.maxIterations) :
    runLoop cfg env (f + 1) s =
      if (env (s.cur + 1)).detectionScore ≤ cfg.targetThreshold then stepState env s
      else runLoop cfg env f { stepState env s with cur := s.cur + 1 } := by
  rw [runLoop]
  simp only [if_pos h]
  rfl

theorem runLoop_stop (cfg : OrchConfig) (env : Nat → StageEnv) (f : Nat) (s : RunState)
    (h : ¬ s.cur < cfg.maxIterations) : runLoop cfg env (f + 1) s = s := by
  rw [runLoop]
  simp only [if_neg h]

theorem stepState_ws (env : Nat → StageEnv) (s : RunState) :
    (stepState env s).ws =
      { s.ws with
        iterations := s.ws.iterations ++
          [finishedIter (env (s.cur + 1)) (s.cur + 1)
            (select_aggression_level s.ws.iterations (s.cur + 1))]
        current_iteration := s.cur + 1
        current_text := (env (s.cur + 1)).enhancedText } := by
  simp [stepState, runIterationBody_eq]

theorem runLoop_status (cfg : OrchConfig) (env : Nat → StageEnv) :
    ∀ fuel s, (runLoop cfg env fuel s).ws.status = s.ws.status := by
  intro fuel
  induction fuel with
  | zero => intro s; rfl
  | succ f ih =>
    intro s
    by_cases h : s.cur < cfg.maxIterations
    · rw [runLoop_succ cfg env f s h]
      by_cases hg : (env (s.cur + 1)).detectionScore ≤ cfg.targetThreshold
      · simp [if_pos hg, stepState_ws]
      · rw [if_neg hg, ih]
        simp [stepState_ws]
    · rw [runLoop_stop cfg env f s h]

/-- The loop only ever appends to the iteration history. -/
theorem runLoop_iterations_append (cfg : OrchConfig) (env : Nat → StageEnv) :
    ∀ fuel s, ∃ t, (runLoop cfg env fuel s).ws.iterations = s.ws.iterations ++ t := by
  intro fuel
  induction fuel with
  | zero => intro s; exact ⟨[], by simp [runLoop]⟩
  | succ f ih =>
    intro s
    by_cases h : s.cur < cfg.maxIterations
    · rw [runLoop_succ cfg env f s h]
      by_cases hg : (env (s.cur + 1)).detectionScore ≤ cfg.targetThreshold
      · refine ⟨[finishedIter (env (s.cur + 1)) (s.cur + 1)
          (select_aggression_level s.ws.iterations (s.cur + 1))], ?_⟩
        rw [if_pos hg, stepState_ws]
      · rw [if_neg hg]
        rcases ih { stepState env s with cur := s.cur + 1 } with ⟨t, ht⟩
        rw [ht]
        refine ⟨finishedIter (env (s.cur + 1)) (s.cur + 1)
          (select_aggression_level s.ws.iterations (s.cur + 1)) :: t, ?_⟩
        simp [stepState_ws]
    · exact ⟨[], by rw [runLoop_stop cfg env f s h, List.append_nil]⟩

theorem runLoop_lastScore_isSome (cfg : OrchConfig) (env : Nat → StageEnv) :
    ∀ fuel s, s.lastScore.isSome = true →
      (runLoop cfg env fuel s).lastScore.isSome = true := by
  intro fuel
  induction fuel with
  | zero => intro s h; simpa [runLoop] using h
  | succ f ih =>
    intro s h
    by_cases hc : s.cur < cfg.maxIterations
    · rw [runLoop_succ cfg env f s hc]
      by_cases hg : (env (s.cur + 1)).detectionScore ≤ cfg.targetThreshold
      · simp [if_pos hg, stepState]
      · rw [if_neg hg]
        exact ih _ (by simp [stepState])
    · rw [runLoop_stop cfg env f s hc]
      exact h

/-- C3's loop core: when iteration `k` is the first whose detection score
meets the target threshold, the loop performs exactly the iterations up
to `k` and stops there. -/
theorem runLoop_gate (cfg : OrchConfig) (env : Nat → StageEnv) (k : Nat) :
    ∀ fuel s, s.cur < k → k ≤ cfg.maxIterations →
    cfg.maxIterations ≤ s.cur + fuel →
    (env k).detectionScore ≤ cfg.targetThreshold →
    (∀ j, s.cur < j → j < k → cfg.targetThreshold < (env j).detectionScore) →
    (runLoop cfg env fuel s).ws.iterations.length =
        s.ws.iterations.length + (k - s.cur) ∧
      (runLoop cfg env fuel s).lastScore = some (env k).detectionScore ∧
      ((runLoop cfg env fuel s).ws.iterations.getLast?.map fun it => it.iteration) =
        some k := by
  intro fuel
  induction fuel with
  | zero => intro s hk hkm hfuel _ _; omega
  | succ f ih =>
    intro s hk hkm hfuel hgate hbefore
    have hc : s.cur < cfg.maxIterations := lt_of_lt_of_le hk hkm
    rw [runLoop_succ cfg env f s hc]
    rcases Nat.lt_or_ge (s.cur + 1) k with hlt | hge
    · have hgt : cfg.targetThreshold < (env (s.cur + 1)).detectionScore :=
        hbefore (s.cur + 1) (Nat.lt_succ_self _) hlt
      rw [if_neg (not_le.mpr hgt)]
      rcases ih { stepState env s with cur := s.cur + 1 } hlt hkm (by simp; omega) hgate
        (fun j hj1 hj2 => hbefore j (by simp at hj1; omega) hj2) with ⟨h1, h2, h3⟩
      refine ⟨?_, h2, h3⟩
      rw [h1]
      simp only [stepState_ws, List.length_append, List.length_singleton]
      omega
    · have hkeq : k = s.cur + 1 := by omega
      subst hkeq
      rw [if_pos hgate]
      refine ⟨?_, rfl, ?_⟩
      · rw [stepState_ws]
        simp only [List.length_append, List.length_singleton]
        omega
      · rw [stepState_ws]
        simp [finishedIter]

/-- C4's loop core: from any resumed state below the iteration budget,
the pre-existing history is preserved verbatim as a prefix, the first
freshly appended iteration carries ordinal `cur + 1`, and the
`detection_score` local ends up bound. -/
theorem runLoop_resume (cfg : OrchConfig) (env : Nat → StageEnv) (fuel : Nat)
    (s : RunState) (hc : s.cur < cfg.maxIterations) (hf : 1 ≤ fuel) :
    (runLoop cfg env fuel s).ws.iterations.take s.ws.iterations.length =
        s.ws.iterations ∧
      (((runLoop cfg env fuel s).ws.iterations[s.ws.iterations.length]?).map
        fun it => it.iteration) = some (s.cur + 1) ∧
      (runLoop cfg env fuel s).lastScore.isSome = true := by
  rcases Nat.exists_eq_add_of_le hf with ⟨f, hfe⟩
  subst hfe
  rw [Nat.add_comm, runLoop_succ cfg env f s hc]
  by_cases hg : (env (s.cur + 1)).detectionScore ≤ cfg.targetThreshold
  · rw [if_pos hg]
    refine ⟨?_, ?_, by simp [stepState]⟩
    · rw [stepState_ws]
      exact List.take_left _ _
    · rw [stepState_ws]
      simp only
      rw [List.getElem?_append_right le_rfl]
      simp [finishedIter]
  · rw [if_neg hg]
    rcases runLoop_iterations_append cfg env f { stepState env s with cur := s.cur + 1 }
      with ⟨t, ht⟩
    have hsw : ({ stepState env s with cur := s.cur + 1 } : RunState).ws.iterations =
        s.ws.iterations ++
          [finishedIter (env (s.cur + 1)) (s.cur + 1)
            (select_aggression_level s.ws.iterations (s.cur + 1))] := by
      rw [stepState_ws]
    rw [hsw] at ht
    refine ⟨?_, ?_, ?_⟩
    · rw [ht, List.append_assoc, List.take_left]
    · rw [ht, List.append_assoc, List.getElem?_append_right le_rfl]
      simp [finishedIter]
    · exact runLoop_lastScore_isSome cfg env f _ (by simp [stepState])

/-! ### Claim theorems: the checkpoint store (C1, C6, C7) -/

theorem load_workflow_congr (fs1 fs2 : FS) (h : fs1.live = fs2.live) :
    load_workflow fs1 = load_workflow fs2 := by
  simp only [load_workflow, h]

/-- C1: every `save_checkpoint` run writes the serialised state to a
temporary sibling, flushes and fsyncs it, and only then atomically
renames it over the live checkpoint path — the rename is the final step.
A crash after any proper prefix of the steps leaves the live checkpoint
byte-identical, so `load_workflow` still returns the previous state; an
exception at any such point removes the temporary file and leaves the
live checkpoint unchanged; a completed run leaves the live checkpoint
holding exactly the saved state. -/
theorem c1_save_checkpoint_atomic (ws : WorkflowState) (backup : Bool) (fs : FS) (k : Nat)
    (hk : k < (saveSteps backup).length) :
    (save_checkpoint_crash ws backup k fs).live = fs.live ∧
      load_workflow (save_checkpoint_crash ws backup k fs) = load_workflow fs ∧
      (save_checkpoint_fail ws backup k fs).1.live = fs.live ∧
      (save_checkpoint_fail ws backup k fs).1.temp = none ∧
      (save_checkpoint_fail ws backup k fs).2 = false ∧
      (save_checkpoint ws backup fs).1.live = some (Content.valid ws) ∧
      load_workflow (save_checkpoint ws backup fs).1 = some ws := by
  have hlive : (save_checkpoint_crash ws backup k fs).live = fs.live := by
    cases backup
    · have hk3 : k < 3 := by simpa [saveSteps] using hk
      interval_cases k <;> cases hl : fs.live <;>
        simp [save_checkpoint_crash, runSaveSteps, saveSteps, applySaveStep, hl]
    · have hk4 : k < 4 := by simpa [saveSteps] using hk
      interval_cases k <;> cases hl : fs.live <;>
        simp [save_checkpoint_crash, runSaveSteps, saveSteps, applySaveStep, hl]
  have hfull : (save_checkpoint ws backup fs).1.live = some (Content.valid ws) := by
    cases backup <;> cases hl : fs.live <;>
      simp [save_checkpoint, runSaveSteps, saveSteps, applySaveStep, hl]
  refine ⟨hlive, load_workflow_congr _ _ hlive, ?_, ?_, rfl, hfull, ?_⟩
  · simpa [save_checkpoint_fail, applySaveStep] using hlive
  · simp [save_checkpoint_fail, applySaveStep]
  · rw [load_workflow, hfull]

/-- Shared sample state for concrete witnesses. -/
def sampleWS : WorkflowState := initWorkflowState "wf-prev" "previous text" 20 7 "t0"

/-- Sample filesystem whose live checkpoint holds a valid previous
state. -/
def sampleFS : FS :=
  { live := some (Content.valid sampleWS), temp := none, tempSynced := false, backups := [] }

theorem c1_save_checkpoint_atomic_witness :
    2 < (saveSteps true).length ∧
      ((save_checkpoint_crash sampleWS true 2 sampleFS).live = sampleFS.live ∧
        load_workflow (save_checkpoint_crash sampleWS true 2 sampleFS) =
          load_workflow sampleFS ∧
        (save_checkpoint_fail sampleWS true 2 sampleFS).1.live = sampleFS.live ∧
        (save_checkpoint_fail sampleWS true 2 sampleFS).1.temp = none ∧
        (save_checkpoint_fail sampleWS true 2 sampleFS).2 = false ∧
        (save_checkpoint sampleWS true sampleFS).1.live = some (Content.valid sampleWS) ∧
        load_workflow (save_checkpoint sampleWS true sampleFS).1 = some sampleWS) :=
  ⟨by decide, c1_save_checkpoint_atomic sampleWS true sampleFS 2 (by decide)⟩

/-- Sample filesystem whose live checkpoint exists but cannot be
parsed. -/
def fsCorrupt : FS :=
  { live := some Content.corrupt, temp := none, tempSynced := false, backups := [] }

/-- Sample filesystem with no checkpoint file. -/
def fsEmpty : FS :=
  { live := none, temp := none, tempSynced := false, backups := [] }

/-- C6 counterexample: a checkpoint for the id already exists, yet
`create_workflow` does not fail — the source never checks for existence —
and it performs the initial durable write, replacing the existing live
checkpoint with the fresh state. -/
theorem c6_create_workflow_counterexample :
    fsCorrupt.live.isSome = true ∧
      (create_workflow fsCorrupt "now" "wf-new" "text" 20 7).2 =
        initWorkflowState "wf-new" "text" 20 7 "now" ∧
      (create_workflow fsCorrupt "now" "wf-new" "text" 20 7).1.live =
        some (Content.valid (initWorkflowState "wf-new" "text" 20 7 "now")) ∧
      (create_workflow fsCorrupt "now" "wf-new" "text" 20 7).1.live ≠ fsCorrupt.live := by
  refine ⟨rfl, rfl, rfl, ?_⟩
  intro h
  simp [create_workflow, save_checkpoint, runSaveSteps, saveSteps, applySaveStep,
    fsCorrupt] at h

/-- C6 amended: `create_workflow` initializes a fresh `WorkflowState` and
performs the initial durable write unconditionally — whether or not a
checkpoint for the id already exists, the live checkpoint afterwards
holds the fresh state (an existing one is overwritten, not reported as
`AlreadyExists`). -/
theorem c6_create_workflow_amended (fs : FS) (now wid text : String) (thr : ℚ)
    (maxIt : Nat) :
    (create_workflow fs now wid text thr maxIt).2 =
        initWorkflowState wid text thr maxIt now ∧
      (create_workflow fs now wid text thr maxIt).1.live =
        some (Content.valid (initWorkflowState wid text thr maxIt now)) := by
  refine ⟨rfl, ?_⟩
  cases hl : fs.live <;>
    simp [create_workflow, save_checkpoint, runSaveSteps, saveSteps, applySaveStep, hl]

/-- C7 counterexample: an unparseable checkpoint makes `load_workflow`
return `None` — the very value reserved for "no checkpoint exists" — so
there is no `Corrupt` outcome distinct from `NotFound`. -/
theorem c7_load_workflow_counterexample :
    fsCorrupt.live.isSome = true ∧
      load_workflow fsCorrupt = none ∧
      fsEmpty.live = none ∧
      load_workflow fsCorrupt = load_workflow fsEmpty := by
  exact ⟨rfl, rfl, rfl, rfl⟩

/-- C7 amended: `load_workflow` returns the stored state (with its
iteration sequence exactly as persisted, hence in original order) when
the checkpoint parses, and returns `None` both when no checkpoint file
exists and when the stored representation cannot be parsed — corruption
is swallowed by the catch-all handler and is not distinguished from
`NotFound`, and nothing is retried. -/
theorem c7_load_workflow_amended (fs : FS) (ws : WorkflowState) :
    (fs.live = none → load_workflow fs = none) ∧
      (fs.live = some (Content.valid ws) → load_workflow fs = some ws) ∧
      (fs.live = some Content.corrupt → load_workflow fs = none) := by
  refine ⟨fun h => ?_, fun h => ?_, fun h => ?_⟩ <;> simp [load_workflow, h]

theorem c7_load_workflow_amended_witness :
    (fsEmpty.live = none ∧ load_workflow fsEmpty = none) ∧
      (sampleFS.live = some (Content.valid sampleWS) ∧
        load_workflow sampleFS = some sampleWS) ∧
      (fsCorrupt.live = some Content.corrupt ∧ load_workflow fsCorrupt = none) :=
  ⟨⟨rfl, (c7_load_workflow_amended fsEmpty sampleWS).1 rfl⟩,
    ⟨rfl, (c7_load_workflow_amended sampleFS sampleWS).2.1 rfl⟩,
    ⟨rfl, (c7_load_workflow_amended fsCorrupt sampleWS).2.2 rfl⟩⟩

/-! ### Claim theorems: aggression selection (C5) -/

/-- C5: iteration 1 always gets the initial ladder level `"gentle"`
(`aggression_levels` index 0); for a later iteration with two recorded
iterations, an improvement `prev - current` below the stagnation
threshold 5.0 escalates exactly one ladder index, capped at the top index
4 (level 5), and otherwise the previous iteration's level is held.  The
escalation and hold cases get separate instantiations so both hypotheses
are satisfiable at once. -/
theorem c5_aggression_escalation (its0 pre pre2 : List IterationState)
    (a b a2 b2 : IterationState) (n n2 : Nat) (hn : 2 ≤ n) (hn2 : 2 ≤ n2)
    (hmem : b.aggression_level ∈ aggression_levels)
    (hstag : a.detection_score - b.detection_score < 5)
    (hprog : ¬ a2.detection_score - b2.detection_score < 5) :
    select_aggression_level its0 1 = "gentle" ∧
      aggression_levels.indexOf (select_aggression_level (pre ++ [a, b]) n) =
        min (aggression_levels.indexOf b.aggression_level + 1) 4 ∧
      select_aggression_level (pre2 ++ [a2, b2]) n2 = b2.aggression_level := by
  have hfirst : select_aggression_level its0 1 = "gentle" := by
    simp [select_aggression_level]
  have hne : ¬ n = 1 := by omega
  have hne2 : ¬ n2 = 1 := by omega
  have key : ∀ (p : List IterationState) (x y : IterationState) (m : Nat), ¬ m = 1 →
      select_aggression_level (p ++ [x, y]) m =
        (if x.detection_score - y.detection_score < 5 then
          aggression_levels.getD (min (aggression_levels.indexOf y.aggression_level + 1) 4)
            "nuclear"
        else y.aggression_level) := by
    intro p x y m hm
    have hlen : ¬ (p ++ [x, y]).length < 2 := by simp
    have hdrop : (p ++ [x, y]).drop ((p ++ [x, y]).length - 2) = [x, y] := by
      have : (p ++ [x, y]).length - 2 = p.length := by simp
      rw [this, List.drop_left]
    rw [select_aggression_level, if_neg hm, if_neg hlen, hdrop]
  refine ⟨hfirst, ?_, ?_⟩
  · rw [key pre a b n hne, if_pos hstag]
    simp only [aggression_levels, List.mem_cons, List.not_mem_nil, or_false] at hmem
    rcases hmem with h | h | h | h | h <;> rw [h] <;> decide
  · rw [key pre2 a2 b2 n2 hne2, if_neg hprog]

/-- Concrete completed iterations for witnesses: iteration `i` scored
`sc` at level `lvl`. -/
def doneIter (i : Nat) (ts : String) (sc : ℚ) (lvl : String) : IterationState :=
  { iteration := i
    timestamp := ts
    detection_score := sc
    originality_score := sc
    gptzero_score := 0
    aggression_level := lvl
    components_executed := []
    component_outputs := []
    token_usage := []
    errors := []
    completed := true
    status := "completed" }

theorem c5_aggression_escalation_witness :
    (doneIter 2 "t2" 46 "gentle").aggression_level ∈ aggression_levels ∧
      (doneIter 1 "t1" 50 "gentle").detection_score -
          (doneIter 2 "t2" 46 "gentle").detection_score < 5 ∧
      ¬ ((doneIter 1 "t1" 50 "gentle").detection_score -
          (doneIter 2 "t2" 40 "moderate").detection_score < 5) ∧
      select_aggression_level [] 1 = "gentle" ∧
      aggression_levels.indexOf
          (select_aggression_level [doneIter 1 "t1" 50 "gentle", doneIter 2 "t2" 46 "gentle"]
            3) =
        min (aggression_levels.indexOf (doneIter 2 "t2" 46 "gentle").aggression_level + 1)
          4 ∧
      select_aggression_level [doneIter 1 "t1" 50 "gentle", doneIter 2 "t2" 40 "moderate"]
          3 =
        (doneIter 2 "t2" 40 "moderate").aggression_level := by
  have h := c5_aggression_escalation [] [] [] (doneIter 1 "t1" 50 "gentle")
    (doneIter 2 "t2" 46 "gentle") (doneIter 1 "t1" 50 "gentle")
    (doneIter 2 "t2" 40 "moderate") 3 3 (by omega) (by omega) (by decide)
    (by norm_num [doneIter]) (by norm_num [doneIter])
  exact ⟨by decide, by norm_num [doneIter], by norm_num [doneIter], h.1, h.2.1, h.2.2⟩

/-! ### Claim theorems: the single-incomplete-iteration invariant (C9) -/

/-- Number of iteration records not yet marked completed. -/
def countIncomplete (l : List IterationState) : Nat :=
  (l.filter fun it => !it.completed).length

theorem countIncomplete_cons (x : IterationState) (l : List IterationState) :
    countIncomplete (x :: l) = (if x.completed then 0 else 1) + countIncomplete l := by
  cases hx : x.completed <;> simp [countIncomplete, List.filter_cons, hx]
  omega

theorem countIncomplete_append (l1 l2 : List IterationState) :
    countIncomplete (l1 ++ l2) = countIncomplete l1 + countIncomplete l2 := by
  simp [countIncomplete, List.filter_append]

theorem countIncomplete_modifyLast (f : IterationState → IterationState)
    (hf : ∀ x, (f x).completed = x.completed) (l : List IterationState) :
    countIncomplete (modifyLast f l) = countIncomplete l := by
  induction l with
  | nil => rfl
  | cons a t ih =>
    cases t with
    | nil => simp [modifyLast, countIncomplete_cons, hf a]
    | cons b t2 =>
      rw [modifyLast_cons f a (b :: t2) (by simp), countIncomplete_cons,
        countIncomplete_cons, ih]

/-- The exact state a crash during iteration 1 leaves in the checkpoint:
`create_workflow` then `start_iteration(1, "gentle")` (persisted by the
first `update_iteration`'s save). -/
def interruptedWS : WorkflowState :=
  start_iteration (initWorkflowState "wf-int" "text" 20 3 "t0") "t1" 1 "gentle"

/-- The not-yet-completed iteration record inside `interruptedWS`. -/
def pendingIter1 : IterationState :=
  { iteration := 1
    timestamp := "t1"
    detection_score := 0
    originality_score := 0
    gptzero_score := 0
    aggression_level := "gentle"
    components_executed := []
    component_outputs := []
    token_usage := []
    errors := []
    completed := false
    status := "in_progress" }

/-- C9 counterexample: resuming from a checkpoint that contains an
interrupted (non-completed) iteration and then calling `start_iteration`
— with exactly the arguments `run_workflow`'s loop passes, ordinal
`current_iteration + 1 = 2` and the level selected from the loaded
history — leaves two IterationStates with `completed = false`, violating
the at-most-one invariant. -/
theorem c9_counterexample :
    ((interruptedWS.iterations.map fun it => it.completed) = [false]) ∧
      countIncomplete (start_iteration interruptedWS "t2" 2
          (select_aggression_level interruptedWS.iterations 2)).iterations = 2 ∧
      ¬ countIncomplete (start_iteration interruptedWS "t2" 2
          (select_aggression_level interruptedWS.iterations 2)).iterations ≤ 1 := by
  refine ⟨rfl, rfl, by decide⟩

/-- C9 amended: the invariant holds as long as the history carries no
abandoned iteration: starting an iteration on a fully-completed history
yields exactly one incomplete record, `update_iteration` never changes
any completion flag, and `complete_iteration` on a history whose only
incomplete record is the last one brings the count back to zero.  (On a
resume from a checkpoint with an interrupted iteration the count reaches
two — see the counterexample.) -/
theorem c9_at_most_one_incomplete (ws1 ws2 ws3 : WorkflowState) (ts : String) (n : Nat)
    (lvl component : String) (output : JVal) (ds os gs : Option ℚ)
    (tu : Option (List (String × Nat))) (err : Option String) (txt : String)
    (l : List IterationState) (it : IterationState)
    (hws1 : countIncomplete ws1.iterations = 0)
    (hsplit : ws3.iterations = l ++ [it]) (hl : countIncomplete l = 0) :
    countIncomplete (start_iteration ws1 ts n lvl).iterations = 1 ∧
      countIncomplete (update_iteration ws2 component output ds os gs tu err).iterations =
        countIncomplete ws2.iterations ∧
      countIncomplete (complete_iteration ws3 txt).iterations = 0 := by
  refine ⟨?_, ?_, ?_⟩
  · rw [start_iteration]
    simp only [countIncomplete_append, hws1]
    rfl
  · show countIncomplete (modifyLast
      (applyUpdate component output ds os gs tu err) ws2.iterations) =
        countIncomplete ws2.iterations
    apply countIncomplete_modifyLast
    intro x
    cases ds <;> cases os <;> cases gs <;> cases tu <;> cases err <;> rfl
  · rw [complete_iteration]
    simp only [hsplit, modifyLast_append_singleton, countIncomplete_append, hl]
    rfl

theorem c9_at_most_one_incomplete_witness :
    countIncomplete sampleWS.iterations = 0 ∧
      interruptedWS.iterations = [] ++ [pendingIter1] ∧
      countIncomplete [] = 0 ∧
      countIncomplete (start_iteration sampleWS "t1" 1 "gentle").iterations = 1 ∧
      countIncomplete (update_iteration interruptedWS "term_protector"
          (JVal.jobj [("protected_terms", JVal.jnum 4)]) none none none none
          none).iterations =
        countIncomplete interruptedWS.iterations ∧
      countIncomplete (complete_iteration interruptedWS "done text").iterations = 0 := by
  have h := c9_at_most_one_incomplete sampleWS interruptedWS interruptedWS "t1" 1 "gentle"
    "term_protector" (JVal.jobj [("protected_terms", JVal.jnum 4)]) none none none none
    none "done text" [] pendingIter1 rfl rfl rfl
  exact ⟨rfl, rfl, rfl, h.1, h.2.1, h.2.2⟩

/-! ### Claim theorems: the control loop (C3, C4, C10) -/

/-- A stage environment in which every tool succeeds and the detection
stage reports the score `sc`, identically each iteration. -/
def envFlat (sc : ℚ) : Nat → StageEnv := fun _ =>
  { timestamp := "ts"
    protectedTermsCount := 0
    protectedText := "p"
    postOut := JVal.jobj []
    postText := "p"
    patternsRemoved := 0
    cleanedText := "p"
    burstOut := JVal.jobj []
    enhancedText := "p"
    detectOut := JVal.jobj []
    detectionScore := sc
    perplexOut := JVal.jobj []
    validOut := JVal.jobj [] }

/-- A filesystem whose live checkpoint is the interrupted-iteration state
`interruptedWS`. -/
def fsInterrupted : FS :=
  { live := some (Content.valid interruptedWS), temp := none, tempSynced := false
    backups := [] }

/-- C3: if iteration `k` is the first whose detection score meets the
target threshold, the loop exits at iteration `k` — exactly `k`
iteration records exist and the last carries ordinal `k`, so no
iteration `k + 1` is ever started — and the workflow is finalized with
status `"completed"`. -/
theorem c3_quality_gate_exit (cfg : OrchConfig) (env : Nat → StageEnv)
    (wid text now endTs : String) (k : Nat)
    (hk1 : 1 ≤ k) (hkm : k ≤ cfg.maxIterations)
    (hgate : (env k).detectionScore ≤ cfg.targetThreshold)
    (hbefore : ∀ j, 1 ≤ j → j < k → cfg.targetThreshold < (env j).detectionScore) :
    (run_workflow_new cfg env wid text now endTs).map
        (fun w => (w.iterations.length,
          w.iterations.getLast?.map fun it => it.iteration, w.status)) =
      Except.ok (k, some k, "completed") := by
  have hcur : (initRunState
      (initWorkflowState wid text cfg.targetThreshold cfg.maxIterations now)).cur < k := by
    simpa [initRunState, initWorkflowState] using hk1
  have hfuel : cfg.maxIterations ≤ (initRunState
      (initWorkflowState wid text cfg.targetThreshold cfg.maxIterations now)).cur +
        cfg.maxIterations := by
    simp [initRunState, initWorkflowState]
  have hbef : ∀ j, (initRunState
      (initWorkflowState wid text cfg.targetThreshold cfg.maxIterations now)).cur < j →
      j < k → cfg.targetThreshold < (env j).detectionScore := by
    intro j hj1 hj2
    refine hbefore j ?_ hj2
    simp only [initRunState, initWorkflowState] at hj1
    omega
  rcases runLoop_gate cfg env k cfg.maxIterations
    (initRunState (initWorkflowState wid text cfg.targetThreshold cfg.maxIterations now))
    hcur hkm hfuel hgate hbef with ⟨h1, h2, h3⟩
  rw [run_workflow_new, runAndFinalize]
  simp only [h2, Except.map, complete_workflow, if_pos hgate]
  rw [h1, h3]
  simp [initRunState, initWorkflowState]

theorem c3_quality_gate_exit_witness :
    (1 ≤ 2 ∧ 2 ≤ 3 ∧
      ((fun n => envFlat (if n = 2 then (10 : ℚ) else 50) n) 2).detectionScore ≤
        (20 : ℚ)) ∧
      (run_workflow_new ⟨3, 20⟩ (fun n => envFlat (if n = 2 then (10 : ℚ) else 50) n)
          "wf-c3" "text" "t0" "end").map
          (fun w => (w.iterations.length,
            w.iterations.getLast?.map fun it => it.iteration, w.status)) =
        Except.ok (2, some 2, "completed") := by
  refine ⟨⟨by omega, by omega, by norm_num [envFlat]⟩, ?_⟩
  exact c3_quality_gate_exit ⟨3, 20⟩ (fun n => envFlat (if n = 2 then (10 : ℚ) else 50) n)
    "wf-c3" "text" "t0" "end" 2 (by omega) (by decide) (by norm_num [envFlat])
    (by intro j hj1 hj2
        interval_cases j
        norm_num [envFlat])

/-- C4 amended: resuming always restarts at ordinal
`current_iteration + 1`: the loaded history — completed iterations
included — is preserved verbatim as a prefix (so no completed iteration
is re-executed, and an interrupted iteration is abandoned in place, never
replayed), and the first freshly started iteration carries ordinal
`current_iteration + 1` even when the checkpoint's last iteration was
never marked completed. -/
theorem c4_resume_next_ordinal (cfg : OrchConfig) (env : Nat → StageEnv) (fs : FS)
    (ws0 : WorkflowState) (wid endTs : String)
    (hlive : fs.live = some (Content.valid ws0))
    (hcur : ws0.current_iteration < cfg.maxIterations) :
    ∃ final, run_workflow_resume cfg env fs wid endTs = Except.ok final ∧
      final.iterations.take ws0.iterations.length = ws0.iterations ∧
      ((final.iterations[ws0.iterations.length]?).map fun it => it.iteration) =
        some (ws0.current_iteration + 1) := by
  have hcur' : (initRunState ws0).cur < cfg.maxIterations := hcur
  have hfuel : 1 ≤ cfg.maxIterations := by omega
  rcases runLoop_resume cfg env cfg.maxIterations (initRunState ws0) hcur' hfuel
    with ⟨h1, h2, h3⟩
  rcases Option.isSome_iff_exists.mp h3 with ⟨d, hd⟩
  have hload : load_workflow fs = some ws0 := by simp [load_workflow, hlive]
  simp only [run_workflow_resume, hload, runAndFinalize, hd]
  refine ⟨_, rfl, ?_, ?_⟩
  · simpa [complete_workflow, initRunState] using h1
  · simpa [complete_workflow, initRunState] using h2

theorem c4_resume_next_ordinal_witness :
    fsInterrupted.live = some (Content.valid interruptedWS) ∧
      interruptedWS.current_iteration < 2 ∧
      ∃ final, run_workflow_resume ⟨2, 20⟩ (envFlat 10) fsInterrupted "wf-int" "end" =
          Except.ok final ∧
        final.iterations.take interruptedWS.iterations.length =
          interruptedWS.iterations ∧
        ((final.iterations[interruptedWS.iterations.length]?).map
          fun it => it.iteration) = some (interruptedWS.current_iteration + 1) :=
  ⟨rfl, by decide,
    c4_resume_next_ordinal ⟨2, 20⟩ (envFlat 10) fsInterrupted interruptedWS "wf-int" "end"
      rfl (by decide)⟩

/-- C4 counterexample for the claim as stated: the checkpoint's only
iteration, ordinal 1, was never marked completed, so the claim requires
the fresh iteration to start at the same ordinal 1; the code instead
starts it at `current_iteration + 1 = 2`, leaving the history with
ordinals `[1, 2]` and the abandoned record still incomplete. -/
theorem c4_resume_counterexample :
    ((interruptedWS.iterations.map fun it => (it.iteration, it.completed)) =
        [(1, false)]) ∧
      (run_workflow_resume ⟨2, 20⟩ (envFlat 10) fsInterrupted "wf-int" "end").map
          (fun w => w.iterations.map fun it => it.iteration) =
        Except.ok [1, 2] := by
  refine ⟨rfl, ?_⟩
  have hload : load_workflow fsInterrupted = some interruptedWS := rfl
  simp only [run_workflow_resume, hload, runAndFinalize]
  have hcur : (initRunState interruptedWS).cur < (⟨2, 20⟩ : OrchConfig).maxIterations := by
    decide
  rw [show runLoop ⟨2, 20⟩ (envFlat 10) 2 (initRunState interruptedWS) =
      runLoop ⟨2, 20⟩ (envFlat 10) (1 + 1) (initRunState interruptedWS) from rfl,
    runLoop_succ ⟨2, 20⟩ (envFlat 10) 1 (initRunState interruptedWS) hcur]
  rw [if_pos (by norm_num [envFlat])]
  simp only [stepState, stepState_ws, runIterationBody_eq]
  simp [complete_workflow, Except.map, interruptedWS, initWorkflowState, initRunState,
    start_iteration, finishedIter, envFlat]

/-- C10 evidence: a run that exhausts `max_iterations` without meeting
the quality gate is finalized via `complete_workflow` with the last
available score as both final scores, but with status `"max_iterations"`
— a value outside the documented status set
`{in_progress, completed, failed, paused}` — not `"completed"`. -/
theorem c10_exhausted_budget_status :
    (run_workflow_new ⟨1, 20⟩ (envFlat 50) "wf-c10" "text" "t0" "end").map
        (fun w => (w.status, w.final_scores)) =
      Except.ok ("max_iterations", some [("weighted", 50), ("originality", 50)]) ∧
      ¬ "max_iterations" ∈ ["in_progress", "completed", "failed", "paused"] := by
  constructor
  · rw [run_workflow_new, runAndFinalize]
    rw [show (⟨1, 20⟩ : OrchConfig).maxIterations = 0 + 1 from rfl,
      runLoop_succ ⟨1, 20⟩ (envFlat 50) 0
        (initRunState (initWorkflowState "wf-c10" "text" 20 1 "t0"))
        (by simp [initRunState, initWorkflowState])]
    rw [if_neg (by norm_num [envFlat])]
    rw [runLoop]
    simp only [stepState]
    rw [if_neg (by norm_num [envFlat])]
    simp [complete_workflow, Except.map, envFlat]
  · decide


/-! ### Claim theorems: the retry policy (C2, C8) -/

/-- C2: `execute_tool_safely` invokes the stage up to `max_retries`
times.  Part (A), for any behaviour whose every attempt fails retryably:
each failure before the final attempt sleeps `base * 2 ** attempt` and
another attempt follows, while the final attempt raises a
`ToolExecutionError` carrying the component name and the message the
failing branch derived (the non-timeout paths are re-wrapped by the
`except Exception` handler, which prefixes the component name).  Parts
(B) and (C), for a behaviour failing retryably on attempts 0 and 1 and
succeeding on attempt 2 with `max_retries = 3`: the successful output is
returned, no error surfaces, exactly the two backoff delays were slept —
and the term-protection wrapper then records the stage in
`components_executed` exactly once, with the output derived from the
successful result. -/
theorem c2_retry_until_success (m base timeout iteration : Nat) (name : String)
    (behaviorA behaviorB : Nat → AttemptOutcome) (v : JVal) (stderrB : String)
    (ws : WorkflowState) (l : List IterationState) (curIt : IterationState) (pt : String)
    (pl : List (String × JVal))
    (hm : 1 ≤ m)
    (hallA : ∀ a, a < m → isRetryable (behaviorA a) = true)
    (hB0 : isRetryable (behaviorB 0) = true)
    (hB1 : isRetryable (behaviorB 1) = true)
    (hB2 : behaviorB 2 = AttemptOutcome.ran 0 (Stdout.parsed v) stderrB)
    (hnoerr : jlookup v "error" = none)
    (hpt : jlookup v "protected_text" = some (JVal.jstr pt))
    (hpl : jlookup v "placeholder_map" = some (JVal.jobj pl))
    (hws : ws.iterations = l ++ [curIt]) :
    ((execute_tool_safely m base timeout name iteration behaviorA).result =
        Except.error (finalRaisedError timeout name (behaviorA (m - 1))) ∧
      (finalRaisedError timeout name (behaviorA (m - 1))).component = name ∧
      (execute_tool_safely m base timeout name iteration behaviorA).attemptsUsed = m ∧
      (execute_tool_safely m base timeout name iteration behaviorA).delays =
        backoffDelays base 0 (m - 1)) ∧
      ((execute_tool_safely 3 base timeout "term_protector" iteration behaviorB).result =
          Except.ok (some v) ∧
        (execute_tool_safely 3 base timeout "term_protector" iteration
          behaviorB).attemptsUsed = 3 ∧
        (execute_tool_safely 3 base timeout "term_protector" iteration behaviorB).delays =
          [base * 1, base * 2]) ∧
      (execute_term_protection 3 base timeout iteration ws behaviorB =
          StageResult.success
            (update_iteration ws "term_protector"
              (JVal.jobj [("protected_terms", JVal.jnum pl.length)]) none none none none
              none, pt) ∧
        ((update_iteration ws "term_protector"
            (JVal.jobj [("protected_terms", JVal.jnum pl.length)]) none none none none
            none).iterations.getLast?.map
          fun it2 => it2.components_executed.count "term_protector") =
          some (curIt.components_executed.count "term_protector" + 1)) := by
  have mainA : execute_tool_safely m base timeout name iteration behaviorA =
      finalFailure name iteration m timeout (behaviorA (m - 1)) (m - 1)
        ([] ++ retryCtxList name iteration m timeout behaviorA 0 (m - 1))
        ([] ++ backoffDelays base 0 (m - 1)) := by
    rw [execute_tool_safely]
    rw [execGo_skip m base timeout name iteration behaviorA (m - 1) 0 m [] []
      (by omega) (by omega) (fun a ha1 ha2 => hallA a (by omega))]
    have hrem : m - (m - 1) = 0 + 1 := by omega
    rw [Nat.zero_add, hrem]
    exact execGo_final_fail m base timeout name iteration behaviorA (m - 1) 0 _ _
      (hallA (m - 1) (by omega)) (by omega)
  have mainB : execute_tool_safely 3 base timeout "term_protector" iteration behaviorB =
      { result := Except.ok (some v)
        contexts := [] ++ retryCtxList "term_protector" iteration 3 timeout behaviorB 0 2
        delays := [] ++ backoffDelays base 0 2
        attemptsUsed := 3 } := by
    rw [execute_tool_safely]
    rw [execGo_skip 3 base timeout "term_protector" iteration behaviorB 2 0 3 [] []
      (by omega) (by omega) ?hretr]
    case hretr =>
      intro a ha1 ha2
      interval_cases a
      · exact hB0
      · exact hB1
    rw [show (0 + 2 : Nat) = 2 from rfl, show (3 - 2 : Nat) = 0 + 1 from rfl]
    simp [execGo, hB2, hnoerr]
  rcases finalFailure_result name iteration m timeout (behaviorA (m - 1)) (m - 1)
    ([] ++ retryCtxList name iteration m timeout behaviorA 0 (m - 1))
    ([] ++ backoffDelays base 0 (m - 1)) with ⟨hfr, hfd, hfa⟩
  refine ⟨⟨?_, ?_, ?_, ?_⟩, ⟨?_, ?_, ?_⟩, ?_, ?_⟩
  · rw [mainA, hfr]
  · cases behaviorA (m - 1) <;> simp [finalRaisedError]
  · rw [mainA, hfa]; omega
  · rw [mainA, hfd]; simp
  · rw [mainB]
  · rw [mainB]
  · rw [mainB]
    simp [backoffDelays, pow_succ]
  · simp only [execute_term_protection, mainB, hpt, hpl]
  · rw [update_iteration]
    simp only [hws, modifyLast_append_singleton]
    rw [List.getLast?_concat]
    simp [applyUpdate, List.count_append]

/-- The tool output a successful term-protection attempt returns in the
witnesses. -/
def vTermOk : JVal :=
  JVal.jobj [("protected_text", JVal.jstr "SAFE text"),
    ("placeholder_map", JVal.jobj [("TERM_001", JVal.jstr "neural network")])]

/-- Witness behaviour: timeout, then non-zero exit, then success. -/
def behFailFailOk : Nat → AttemptOutcome := fun a =>
  match a with
  | 0 => AttemptOutcome.timedOut
  | 1 => AttemptOutcome.ran 1 Stdout.empty "boom"
  | _ => AttemptOutcome.ran 0 (Stdout.parsed vTermOk) ""

/-- Witness behaviour: every attempt times out. -/
def behAllTimeout : Nat → AttemptOutcome := fun _ => AttemptOutcome.timedOut

theorem c2_retry_until_success_witness :
    ((1 : Nat) ≤ 3 ∧ (∀ a, a < 3 → isRetryable (behAllTimeout a) = true) ∧
      isRetryable (behFailFailOk 0) = true ∧ isRetryable (behFailFailOk 1) = true ∧
      behFailFailOk 2 = AttemptOutcome.ran 0 (Stdout.parsed vTermOk) "" ∧
      jlookup vTermOk "error" = none ∧
      jlookup vTermOk "protected_text" = some (JVal.jstr "SAFE text") ∧
      jlookup vTermOk "placeholder_map" =
        some (JVal.jobj [("TERM_001", JVal.jstr "neural network")]) ∧
      interruptedWS.iterations = [] ++ [pendingIter1]) ∧
      ((execute_tool_safely 3 2 60 "validator" 1 behAllTimeout).result =
          Except.error (finalRaisedError 60 "validator" (behAllTimeout 2)) ∧
        (execute_tool_safely 3 2 60 "validator" 1 behAllTimeout).attemptsUsed = 3 ∧
        (execute_tool_safely 3 2 60 "validator" 1 behAllTimeout).delays =
          backoffDelays 2 0 2) ∧
      ((execute_tool_safely 3 2 60 "term_protector" 1 behFailFailOk).result =
          Except.ok (some vTermOk) ∧
        (execute_tool_safely 3 2 60 "term_protector" 1 behFailFailOk).attemptsUsed = 3 ∧
        (execute_tool_safely 3 2 60 "term_protector" 1 behFailFailOk).delays =
          [2 * 1, 2 * 2]) ∧
      (execute_term_protection 3 2 60 1 interruptedWS behFailFailOk =
          StageResult.success
            (update_iteration interruptedWS "term_protector"
              (JVal.jobj [("protected_terms", JVal.jnum
                ([("TERM_001", JVal.jstr "neural network")] : List (String × JVal)).length)])
              none none none none none, "SAFE text") ∧
        ((update_iteration interruptedWS "term_protector"
            (JVal.jobj [("protected_terms", JVal.jnum
              ([("TERM_001", JVal.jstr "neural network")] : List (String × JVal)).length)])
            none none none none none).iterations.getLast?.map
          fun it2 => it2.components_executed.count "term_protector") =
          some (pendingIter1.components_executed.count "term_protector" + 1)) := by
  have h := c2_retry_until_success 3 2 60 1 "validator" behAllTimeout behFailFailOk
    vTermOk "" interruptedWS [] pendingIter1 "SAFE text"
    [("TERM_001", JVal.jstr "neural network")] (by omega)
    (fun a ha => rfl) rfl rfl rfl rfl rfl rfl rfl
  exact ⟨⟨by omega, fun a ha => rfl, rfl, rfl, rfl, rfl, rfl, rfl, rfl⟩,
    ⟨h.1.1, h.1.2.2.1, h.1.2.2.2⟩, h.2.1, h.2.2⟩

/-- C8: when attempt `k` exits successfully but its stdout is not valid
JSON (after any run of retryable failures before it), the call raises
immediately: the attempt count stops at `k + 1`, no backoff delay is
slept for the malformed failure (only the `k` earlier ones), a
`ToolExecutionError` for the component surfaces, and the `ErrorContext`
logged for the parse failure has `operation = "parse_output"`,
`severity = error` and `recoverable = false`. -/
theorem c8_malformed_output_not_retried (m base timeout iteration k : Nat)
    (name msg stderr2 : String) (behavior : Nat → AttemptOutcome)
    (hk : k < m)
    (hbefore : ∀ a, a < k → isRetryable (behavior a) = true)
    (hmal : behavior k = AttemptOutcome.ran 0 (Stdout.malformed msg) stderr2) :
    (execute_tool_safely m base timeout name iteration behavior).attemptsUsed = k + 1 ∧
      (execute_tool_safely m base timeout name iteration behavior).delays =
        backoffDelays base 0 k ∧
      (execute_tool_safely m base timeout name iteration behavior).result =
        Except.error
          { component := name
            message := JVal.jstr (name ++ ": " ++ ("Invalid JSON output: " ++ msg))
            exit_code := 1 } ∧
      (execute_tool_safely m base timeout name iteration behavior).contexts[k]? =
        some
          { component := name
            operation := "parse_output"
            error_message := JVal.jstr ("Invalid JSON output: " ++ msg)
            severity := ErrorSeverity.error
            iteration := iteration
            recoverable := false
            suggestion := none } := by
  obtain ⟨r, hr⟩ : ∃ r, m - k = r + 1 := ⟨m - k - 1, by omega⟩
  have main : execute_tool_safely m base timeout name iteration behavior =
      wrapRaise name iteration (JVal.jstr ("Invalid JSON output: " ++ msg))
        (([] ++ retryCtxList name iteration m timeout behavior 0 k) ++
          [{ component := name
             operation := "parse_output"
             error_message := JVal.jstr ("Invalid JSON output: " ++ msg)
             severity := ErrorSeverity.error
             iteration := iteration
             recoverable := false
             suggestion := none }])
        ([] ++ backoffDelays base 0 k) k := by
    rw [execute_tool_safely]
    rw [execGo_skip m base timeout name iteration behavior k 0 m [] []
      (by omega) (by omega) (fun a ha1 ha2 => hbefore a (by omega))]
    rw [Nat.zero_add, hr]
    simp [execGo, hmal]
  refine ⟨?_, ?_, ?_, ?_⟩
  · rw [main]; rfl
  · rw [main]
    simp [wrapRaise]
  · rw [main]
    simp [wrapRaise, pyStr]
  · rw [main]
    simp only [wrapRaise, List.nil_append, List.append_assoc]
    rw [List.getElem?_append_right
      (le_of_eq (retryCtxList_length name iteration m timeout behavior 0 k))]
    simp [retryCtxList_length]

/-- Witness behaviour: one timeout, then a zero exit with unparseable
stdout. -/
def behOkThenMalformed : Nat → AttemptOutcome := fun a =>
  match a with
  | 0 => AttemptOutcome.timedOut
  | _ => AttemptOutcome.ran 0 (Stdout.malformed "Expecting value") ""

theorem c8_malformed_output_not_retried_witness :
    ((1 : Nat) < 3 ∧ (∀ a, a < 1 → isRetryable (behOkThenMalformed a) = true) ∧
      behOkThenMalformed 1 =
        AttemptOutcome.ran 0 (Stdout.malformed "Expecting value") "") ∧
      (execute_tool_safely 3 2 60 "detector_processor" 2 behOkThenMalformed).attemptsUsed =
        2 ∧
      (execute_tool_safely 3 2 60 "detector_processor" 2 behOkThenMalformed).delays =
        backoffDelays 2 0 1 ∧
      (execute_tool_safely 3 2 60 "detector_processor" 2 behOkThenMalformed).result =
        Except.error
          { component := "detector_processor"
            message := JVal.jstr
              ("detector_processor" ++ ": " ++ ("Invalid JSON output: " ++ "Expecting value"))
            exit_code := 1 } ∧
      (execute_tool_safely 3 2 60 "detector_processor" 2 behOkThenMalformed).contexts[1]? =
        some
          { component := "detector_processor"
            operation := "parse_output"
            error_message := JVal.jstr ("Invalid JSON output: " ++ "Expecting value")
            severity := ErrorSeverity.error
            iteration := 2
            recoverable := false
            suggestion := none } := by
  have h := c8_malformed_output_not_retried 3 2 60 2 1 "detector_processor"
    "Expecting value" "" behOkThenMalformed (by omega)
    (by intro a ha; interval_cases a; rfl) rfl
  exact ⟨⟨by omega, by intro a ha; interval_cases a; rfl, rfl⟩,
    h.1, h.2.1, h.2.2.1, h.2.2.2⟩


end Humanizer
